import Mathlib

set_option maxRecDepth 100000

/-!
# Verification of the `bot_analysis` stream-ingestion pipeline

A shallow embedding, in Lean 4, of the core of `src/main.rs`:
the record codec (`create_pretty_transaction`), the persistence sink
(`add_record` and the SQL statement it builds), the dispatch loop
(`geyser_subscribe`), the commitment-level handling (`Args::get_commitment`,
`get_subscribe_request`) and the outer retry loop driven by
`backoff::future::retry`.

Machine integers are modelled as `Nat` (all values involved are
non-negative and no overflow is reachable in the modelled paths); byte
arrays are `List Nat` with explicit `< 256` bounds where they matter.
Fallible Rust code is modelled with `Option` / `Except`; a Rust `panic`
(`unwrap` on `None`/`Err`, out-of-bounds index) is a distinguished outcome
constructor, since it aborts the surrounding task rather than returning.
-/

/-! ## Positional numeral systems

`Signature::to_string` and `Pubkey::to_string` (used by
`create_pretty_transaction`) are base-58 encodings of fixed-length byte
strings.  We develop generic digit conversions first.  The digit extractor
uses an explicit fuel argument (the number itself suffices as fuel) so that
it is structurally recursive and reduces inside `decide` / `rfl`.
-/

def toDigitsAux (B : Nat) : Nat → Nat → List Nat
  | 0, _ => []
  | fuel + 1, n => if n = 0 then [] else n % B :: toDigitsAux B fuel (n / B)

/-- Little-endian digits of `n` in base `B` (empty for `n = 0`). -/
def toDigits (B n : Nat) : List Nat :=
  toDigitsAux B n n

/-- Value of a little-endian digit list in base `B`. -/
def ofDigitsLE (B : Nat) (ds : List Nat) : Nat :=
  ds.foldr (fun d acc => acc * B + d) 0

/-- Value of a big-endian digit list in base `B`. -/
def ofDigitsBE (B : Nat) (ds : List Nat) : Nat :=
  ds.foldl (fun acc d => acc * B + d) 0

theorem toDigitsAux_congr (B : Nat) (hB : 2 ≤ B) :
    ∀ f g n, n ≤ f → n ≤ g → toDigitsAux B f n = toDigitsAux B g n := by
  intro f
  induction f with
  | zero =>
    intro g n hf _hg
    have hn : n = 0 := Nat.le_zero.mp hf
    subst hn
    cases g <;> simp [toDigitsAux]
  | succ f ih =>
    intro g n hf hg
    by_cases hn : n = 0
    · subst hn
      cases g <;> simp [toDigitsAux]
    · obtain ⟨g', rfl⟩ : ∃ g', g = g' + 1 := by
        cases g with
        | zero => exact absurd (Nat.le_zero.mp hg) hn
        | succ g' => exact ⟨g', rfl⟩
      simp only [toDigitsAux, if_neg hn]
      have hdiv : n / B < n := Nat.div_lt_self (Nat.pos_of_ne_zero hn) (by omega)
      rw [ih g' (n / B) (by omega) (by omega)]

theorem toDigits_eq (B : Nat) (hB : 2 ≤ B) (n : Nat) (hn : n ≠ 0) :
    toDigits B n = n % B :: toDigits B (n / B) := by
  obtain ⟨m, rfl⟩ : ∃ m, n = m + 1 := by
    cases n with
    | zero => exact absurd rfl hn
    | succ m => exact ⟨m, rfl⟩
  show toDigitsAux B (m + 1) (m + 1) = _
  simp only [toDigitsAux, if_neg hn]
  have hdiv : (m + 1) / B < m + 1 := Nat.div_lt_self (by omega) (by omega)
  rw [toDigitsAux_congr B hB m ((m + 1) / B) ((m + 1) / B) (by omega) (by omega)]
  rfl

theorem ofDigitsLE_cons (B d : Nat) (ds : List Nat) :
    ofDigitsLE B (d :: ds) = ofDigitsLE B ds * B + d := rfl

theorem ofDigitsLE_toDigits (B : Nat) (hB : 2 ≤ B) :
    ∀ n, ofDigitsLE B (toDigits B n) = n := by
  intro n
  induction n using Nat.strong_induction_on with
  | _ n ih =>
    by_cases hn : n = 0
    · subst hn; rfl
    · rw [toDigits_eq B hB n hn, ofDigitsLE_cons,
        ih (n / B) (Nat.div_lt_self (Nat.pos_of_ne_zero hn) (by omega))]
      rw [Nat.mul_comm]
      exact Nat.div_add_mod n B

theorem toDigits_lt (B : Nat) (hB : 2 ≤ B) :
    ∀ n, ∀ d ∈ toDigits B n, d < B := by
  intro n
  induction n using Nat.strong_induction_on with
  | _ n ih =>
    intro d hd
    by_cases hn : n = 0
    · subst hn; simp [toDigits, toDigitsAux] at hd
    · rw [toDigits_eq B hB n hn] at hd
      rcases List.mem_cons.mp hd with h | h
      · subst h; exact Nat.mod_lt n (by omega)
      · exact ih (n / B) (Nat.div_lt_self (Nat.pos_of_ne_zero hn) (by omega)) d h

theorem toDigits_ne_nil (B : Nat) (hB : 2 ≤ B) (n : Nat) (hn : n ≠ 0) :
    toDigits B n ≠ [] := by
  rw [toDigits_eq B hB n hn]
  exact List.cons_ne_nil _ _

theorem toDigits_getLast?_ne_zero (B : Nat) (hB : 2 ≤ B) :
    ∀ n, n ≠ 0 → (toDigits B n).getLast? ≠ some 0 := by
  intro n
  induction n using Nat.strong_induction_on with
  | _ n ih =>
    intro hn
    rw [toDigits_eq B hB n hn]
    by_cases hq : n / B = 0
    · have hlt : n < B := (Nat.div_eq_zero_iff (by omega)).mp hq
      rw [hq]
      simp [toDigits, toDigitsAux, Nat.mod_eq_of_lt hlt]
      omega
    · obtain ⟨x, l, hxl⟩ : ∃ x l, toDigits B (n / B) = x :: l := by
        cases h : toDigits B (n / B) with
        | nil => exact absurd h (toDigits_ne_nil B hB _ hq)
        | cons x l => exact ⟨x, l, rfl⟩
      rw [hxl, List.getLast?_cons_cons, ← hxl]
      exact ih (n / B) (Nat.div_lt_self (Nat.pos_of_ne_zero hn) (by omega)) hq

theorem ofDigitsLE_eq_zero (B : Nat) (hB : 2 ≤ B) :
    ∀ l : List Nat, ofDigitsLE B l = 0 → ∀ d ∈ l, d = 0 := by
  intro l
  induction l with
  | nil => intro _ d hd; simp at hd
  | cons b t ih =>
    intro h d hd
    rw [ofDigitsLE_cons] at h
    have hb : b = 0 := by omega
    have ht : ofDigitsLE B t = 0 := by
      have hm : ofDigitsLE B t * B = 0 := by omega
      rcases Nat.mul_eq_zero.mp hm with h' | h'
      · exact h'
      · omega
    rcases List.mem_cons.mp hd with h' | h'
    · omega
    · exact ih ht d h'

theorem ofDigitsLE_ne_zero (B : Nat) (hB : 2 ≤ B) (l : List Nat)
    (hnil : l ≠ []) (hlast : l.getLast? ≠ some 0) : ofDigitsLE B l ≠ 0 := by
  intro h
  apply hlast
  rw [List.getLast?_eq_getLast l hnil]
  exact congrArg some (ofDigitsLE_eq_zero B hB l h _ (List.getLast_mem hnil))

theorem toDigits_ofDigitsLE (B : Nat) (hB : 2 ≤ B) :
    ∀ l : List Nat, (∀ d ∈ l, d < B) → l.getLast? ≠ some 0 →
      toDigits B (ofDigitsLE B l) = l := by
  intro l
  induction l with
  | nil => intro _ _; rfl
  | cons b t ih =>
    intro hlt hlast
    have hb : b < B := hlt b (List.mem_cons_self b t)
    cases t with
    | nil =>
      have hbne : b ≠ 0 := by
        intro h; subst h; exact hlast rfl
      have hv : ofDigitsLE B [b] = b := by simp [ofDigitsLE]
      rw [hv, toDigits_eq B hB b hbne, Nat.mod_eq_of_lt hb,
        Nat.div_eq_of_lt hb]
      rfl
    | cons x t' =>
      have hlast' : (x :: t').getLast? ≠ some 0 := by
        rw [← List.getLast?_cons_cons (a := b)]
        exact hlast
      have hv : ofDigitsLE B (x :: t') ≠ 0 :=
        ofDigitsLE_ne_zero B hB (x :: t') (List.cons_ne_nil _ _) hlast'
      rw [ofDigitsLE_cons]
      have hne : ofDigitsLE B (x :: t') * B + b ≠ 0 := by
        have : 0 < ofDigitsLE B (x :: t') * B :=
          Nat.mul_pos (Nat.pos_of_ne_zero hv) (by omega)
        omega
      rw [toDigits_eq B hB _ hne]
      have hmod : (ofDigitsLE B (x :: t') * B + b) % B = b := by
        rw [Nat.add_comm, Nat.add_mul_mod_self_right]
        exact Nat.mod_eq_of_lt hb
      have hdivq : (ofDigitsLE B (x :: t') * B + b) / B = ofDigitsLE B (x :: t') := by
        rw [Nat.add_comm, Nat.add_mul_div_right b _ (by omega : 0 < B),
          Nat.div_eq_of_lt hb]
        omega
      rw [hmod, hdivq, ih (fun d hd => hlt d (List.mem_cons_of_mem b hd)) hlast']

theorem ofDigitsBE_eq_reverse (B : Nat) (l : List Nat) :
    ofDigitsBE B l = ofDigitsLE B l.reverse := by
  show l.foldl (fun acc d => acc * B + d) 0 = l.reverse.foldr (fun d acc => acc * B + d) 0
  rw [List.foldr_reverse]

/-! ## Leading zero bytes

The bs58 encoding maps each leading zero byte to a leading `'1'` character;
decoding restores one zero byte per leading zero digit.
-/

def countLeadingZeros : List Nat → Nat
  | [] => 0
  | b :: bs => if b = 0 then countLeadingZeros bs + 1 else 0

theorem countLeadingZeros_decompose :
    ∀ bs : List Nat,
      bs = List.replicate (countLeadingZeros bs) 0 ++ bs.drop (countLeadingZeros bs) := by
  intro bs
  induction bs with
  | nil => rfl
  | cons b t ih =>
    by_cases hb : b = 0
    · subst hb
      simp only [countLeadingZeros, if_pos rfl, List.replicate_succ, List.cons_append,
        List.drop_succ_cons]
      exact congrArg (0 :: ·) ih
    · simp [countLeadingZeros, if_neg hb]

theorem countLeadingZeros_drop_head? :
    ∀ bs : List Nat, (bs.drop (countLeadingZeros bs)).head? ≠ some 0 := by
  intro bs
  induction bs with
  | nil => simp
  | cons b t ih =>
    by_cases hb : b = 0
    · subst hb
      simpa [countLeadingZeros] using ih
    · simp [countLeadingZeros, if_neg hb]
      exact hb

theorem countLeadingZeros_replicate_append (z : Nat) (l : List Nat) :
    countLeadingZeros (List.replicate z 0 ++ l) = z + countLeadingZeros l := by
  induction z with
  | zero => simp
  | succ z ih =>
    have hstep : countLeadingZeros ((0 : Nat) :: (List.replicate z 0 ++ l)) =
        countLeadingZeros (List.replicate z 0 ++ l) + 1 := by
      simp [countLeadingZeros]
    rw [List.replicate_succ, List.cons_append, hstep, ih]
    omega

theorem countLeadingZeros_of_head? (l : List Nat) (h : l.head? ≠ some 0) :
    countLeadingZeros l = 0 := by
  cases l with
  | nil => rfl
  | cons b t =>
    have hb : b ≠ 0 := by
      intro hb; subst hb; exact h rfl
    simp [countLeadingZeros, if_neg hb]

theorem countLeadingZeros_all_zero (l : List Nat) (h : ∀ d ∈ l, d = 0) :
    countLeadingZeros l = l.length := by
  induction l with
  | nil => rfl
  | cons b t ih =>
    have hb : b = 0 := h b (List.mem_cons_self b t)
    subst hb
    have hstep : countLeadingZeros ((0 : Nat) :: t) = countLeadingZeros t + 1 := by
      simp [countLeadingZeros]
    rw [hstep, List.length_cons, ih (fun d hd => h d (List.mem_cons_of_mem 0 hd))]

theorem ofDigitsBE_replicate_zero_append (B : Nat) (z : Nat) (l : List Nat) :
    ofDigitsBE B (List.replicate z 0 ++ l) = ofDigitsBE B l := by
  induction z with
  | zero => rfl
  | succ z ih =>
    rw [List.replicate_succ, List.cons_append]
    simp only [ofDigitsBE, List.foldl_cons, Nat.zero_mul, Nat.zero_add] at ih ⊢
    exact ih

theorem getLast?_reverse_eq_head? (l : List Nat) : l.reverse.getLast? = l.head? := by
  cases l with
  | nil => rfl
  | cons a t =>
    simp [List.reverse_cons, List.getLast?_concat]

/-! ## The bs58 alphabet and string-level encoding

`Signature::to_string` / `Pubkey::to_string` use the Bitcoin base-58
alphabet (digits `0`, `O`, `I`, `l` excluded).  `base58Encode` models the
bs58 crate's `encode`: leading zero bytes become leading `'1'`s, the rest
is the big-endian base-58 numeral of the byte string's value.
`base58Decode` models `decode`: leading zero digits become zero bytes and
the numeral's value is re-expanded into big-endian base-256 bytes.
-/

def b58Alphabet : List Char :=
  ['1', '2', '3', '4', '5', '6', '7', '8', '9', 'A', 'B', 'C', 'D', 'E', 'F',
   'G', 'H', 'J', 'K', 'L', 'M', 'N', 'P', 'Q', 'R', 'S', 'T', 'U', 'V', 'W',
   'X', 'Y', 'Z', 'a', 'b', 'c', 'd', 'e', 'f', 'g', 'h', 'i', 'j', 'k', 'm',
   'n', 'o', 'p', 'q', 'r', 's', 't', 'u', 'v', 'w', 'x', 'y', 'z']

def b58Char (d : Nat) : Char :=
  b58Alphabet.getD d '1'

def b58ValAux : List Char → Nat → Char → Option Nat
  | [], _, _ => none
  | a :: as, i, c => if a = c then some i else b58ValAux as (i + 1) c

def b58Val (c : Char) : Option Nat :=
  b58ValAux b58Alphabet 0 c

theorem b58Val_b58Char : ∀ d, d < 58 → b58Val (b58Char d) = some d := by decide

def base58Encode (bytes : List Nat) : String :=
  String.mk (List.replicate (countLeadingZeros bytes) '1' ++
    ((toDigits 58 (ofDigitsBE 256 bytes)).reverse.map b58Char))

def b58DecodeChars : List Char → Option (List Nat)
  | [] => some []
  | c :: cs =>
    match b58Val c, b58DecodeChars cs with
    | some d, some ds => some (d :: ds)
    | _, _ => none

def base58Decode (s : String) : Option (List Nat) :=
  match b58DecodeChars s.data with
  | none => none
  | some ds =>
    some (List.replicate (countLeadingZeros ds) 0 ++
      (toDigits 256 (ofDigitsBE 58 ds)).reverse)

theorem b58DecodeChars_append (l₁ l₂ : List Char) (d₁ : List Nat)
    (h : b58DecodeChars l₁ = some d₁) :
    b58DecodeChars (l₁ ++ l₂) = (b58DecodeChars l₂).map (d₁ ++ ·) := by
  induction l₁ generalizing d₁ with
  | nil =>
    simp only [b58DecodeChars] at h
    cases h
    cases h₂ : b58DecodeChars l₂ <;> simp [h₂]
  | cons c cs ih =>
    simp only [b58DecodeChars] at h
    cases hv : b58Val c with
    | none =>
      simp only [hv] at h
      exact Option.noConfusion h
    | some d =>
      cases hcs : b58DecodeChars cs with
      | none =>
        simp only [hv, hcs] at h
        exact Option.noConfusion h
      | some ds =>
        simp only [hv, hcs, Option.some.injEq] at h
        subst h
        show (match b58Val c, b58DecodeChars (cs ++ l₂) with
          | some d, some ds => some (d :: ds)
          | _, _ => none) = _
        rw [hv, ih ds hcs]
        cases h₂ : b58DecodeChars l₂ with
        | none => rfl
        | some ds₂ => rfl

theorem b58DecodeChars_replicate_one (z : Nat) :
    b58DecodeChars (List.replicate z '1') = some (List.replicate z 0) := by
  induction z with
  | zero => rfl
  | succ z ih =>
    simp only [List.replicate_succ, b58DecodeChars, ih]
    rfl

theorem b58DecodeChars_map_b58Char (ds : List Nat) (h : ∀ d ∈ ds, d < 58) :
    b58DecodeChars (ds.map b58Char) = some ds := by
  induction ds with
  | nil => rfl
  | cons d t ih =>
    simp only [List.map_cons, b58DecodeChars,
      b58Val_b58Char d (h d (List.mem_cons_self d t)),
      ih (fun x hx => h x (List.mem_cons_of_mem d hx))]

theorem head?_reverse_eq_getLast? (l : List Nat) : l.reverse.head? = l.getLast? := by
  have h := getLast?_reverse_eq_head? l.reverse
  rw [List.reverse_reverse] at h
  exact h.symm

/-- bs58 decoding is a left inverse of bs58 encoding on byte strings. -/
theorem base58_roundtrip (bytes : List Nat) (hb : ∀ b ∈ bytes, b < 256) :
    base58Decode (base58Encode bytes) = some bytes := by
  have h58 : (2 : Nat) ≤ 58 := by omega
  have h256 : (2 : Nat) ≤ 256 := by omega
  have hdigits58 : ∀ d ∈ (toDigits 58 (ofDigitsBE 256 bytes)).reverse, d < 58 :=
    fun d hd => toDigits_lt 58 h58 _ d (List.mem_reverse.mp hd)
  have hchars :
      b58DecodeChars (List.replicate (countLeadingZeros bytes) '1' ++
        ((toDigits 58 (ofDigitsBE 256 bytes)).reverse.map b58Char)) =
      some (List.replicate (countLeadingZeros bytes) 0 ++
        (toDigits 58 (ofDigitsBE 256 bytes)).reverse) := by
    rw [b58DecodeChars_append _ _ _ (b58DecodeChars_replicate_one _),
      b58DecodeChars_map_b58Char _ hdigits58]
    rfl
  have hdata : (base58Encode bytes).data =
      List.replicate (countLeadingZeros bytes) '1' ++
        ((toDigits 58 (ofDigitsBE 256 bytes)).reverse.map b58Char) := rfl
  have hdecode : base58Decode (base58Encode bytes) =
      some (List.replicate (countLeadingZeros (List.replicate (countLeadingZeros bytes) 0 ++
          (toDigits 58 (ofDigitsBE 256 bytes)).reverse)) 0 ++
        (toDigits 256 (ofDigitsBE 58 (List.replicate (countLeadingZeros bytes) 0 ++
          (toDigits 58 (ofDigitsBE 256 bytes)).reverse))).reverse) := by
    unfold base58Decode
    rw [hdata, hchars]
  have hcount0 :
      countLeadingZeros ((toDigits 58 (ofDigitsBE 256 bytes)).reverse) = 0 := by
    apply countLeadingZeros_of_head?
    rw [head?_reverse_eq_getLast?]
    by_cases hn : ofDigitsBE 256 bytes = 0
    · rw [hn]
      intro hcontra
      exact Option.noConfusion hcontra
    · exact toDigits_getLast?_ne_zero 58 h58 _ hn
  have hcount : countLeadingZeros (List.replicate (countLeadingZeros bytes) 0 ++
      (toDigits 58 (ofDigitsBE 256 bytes)).reverse) = countLeadingZeros bytes := by
    rw [countLeadingZeros_replicate_append, hcount0]
    omega
  have hval : ofDigitsBE 58 (List.replicate (countLeadingZeros bytes) 0 ++
      (toDigits 58 (ofDigitsBE 256 bytes)).reverse) = ofDigitsBE 256 bytes := by
    rw [ofDigitsBE_replicate_zero_append, ofDigitsBE_eq_reverse, List.reverse_reverse,
      ofDigitsLE_toDigits 58 h58]
  have hrest : toDigits 256 (ofDigitsBE 256 bytes) =
      (bytes.drop (countLeadingZeros bytes)).reverse := by
    have hv : ofDigitsBE 256 bytes =
        ofDigitsLE 256 (bytes.drop (countLeadingZeros bytes)).reverse := by
      conv_lhs => rw [countLeadingZeros_decompose bytes]
      rw [ofDigitsBE_replicate_zero_append, ofDigitsBE_eq_reverse]
    rw [hv]
    apply toDigits_ofDigitsLE 256 h256
    · intro d hd
      exact hb d (List.mem_of_mem_drop (List.mem_reverse.mp hd))
    · rw [getLast?_reverse_eq_head?]
      exact countLeadingZeros_drop_head? bytes
  rw [hdecode, hcount, hval, hrest, List.reverse_reverse]
  exact congrArg some (countLeadingZeros_decompose bytes).symm

/-- `solana_signature::Signature::from_str`: bs58-decode, then require exactly
64 bytes.  This is the inverse decoding the spec refers to for `txn_hash`. -/
def signatureFromStr (s : String) : Option (List Nat) :=
  match base58Decode s with
  | none => none
  | some bs => if bs.length = 64 then some bs else none

/-! ## Data model of `src/main.rs`

Proto message types, trimmed to the fields the program reads.  The proto
`Message` and `Transaction` types are named `TransactionMessage` and
`ConfirmedTransaction` here to keep the names free.  Error and panic texts
live in named constants.
-/

def errNoCreatedAt : String := "no created_at in the message"

def errNoTransaction : String := "no transaction in the message"

def errInvalidSignature : String := "invalid signature"

def panicUnwrapNone : String := "called Option::unwrap() on a None value"

def panicBadPubkey : String := "called Result::unwrap() on an Err value: invalid pubkey length"

def panicIndexZeroOfEmpty : String := "index out of bounds: the len is 0 but the index is 0"

def errDuplicateKey : String := "duplicate key value violates unique constraint"

structure TransactionMessage where
  account_keys : List (List Nat)
  deriving DecidableEq

structure ConfirmedTransaction where
  message : Option TransactionMessage
  deriving DecidableEq

structure TransactionStatusMeta where
  fee : Nat
  deriving DecidableEq

structure SubscribeUpdateTransactionInfo where
  signature : List Nat
  transaction : Option ConfirmedTransaction
  meta : Option TransactionStatusMeta
  deriving DecidableEq

structure SubscribeUpdateTransaction where
  transaction : Option SubscribeUpdateTransactionInfo
  deriving DecidableEq

/-- `yellowstone_grpc_proto::convert_from::create_pubkey_vec`: converts each
raw account key to a `Pubkey`, failing unless every key is exactly 32 bytes
(the conversion collects the per-key `Result`s). -/
def create_pubkey_vec (keys : List (List Nat)) : Option (List (List Nat)) :=
  if keys.all (fun k => k.length == 32) then some keys else none

/-- The JSON object built by `create_pretty_transaction` (before the loop
adds `unix_epoch`). -/
structure PrettyTxn where
  txn_hash : String
  signer : String
  fee : Nat
  deriving DecidableEq

/-- Outcome of running `create_pretty_transaction`: a value, an
`anyhow::Error` (`?`), or a panic (`unwrap` on `None`/`Err`, out-of-bounds
index), which aborts the task instead of returning. -/
inductive DecodeOutcome where
  | ok (value : PrettyTxn)
  | err (e : String)
  | panicked (e : String)
  deriving DecidableEq

/-- `create_pretty_transaction` from the source.  Evaluation order follows
the Rust: the signer chain first (`unwrap` of the message, `unwrap` of
`create_pubkey_vec`, index `[0]`), then `meta.unwrap()`, then the fallible
`Signature::try_from` inside `json!`. -/
def create_pretty_transaction (tx : SubscribeUpdateTransactionInfo) : DecodeOutcome :=
  match tx.transaction.bind (fun t => t.message) with
  | none => .panicked panicUnwrapNone
  | some m =>
    match create_pubkey_vec m.account_keys with
    | none => .panicked panicBadPubkey
    | some pubkeys =>
      match pubkeys with
      | [] => .panicked panicIndexZeroOfEmpty
      | pk :: _ =>
        match tx.meta with
        | none => .panicked panicUnwrapNone
        | some meta =>
          if tx.signature.length = 64 then
            DecodeOutcome.ok
              { txn_hash := base58Encode tx.signature,
                signer := base58Encode pk,
                fee := meta.fee }
          else DecodeOutcome.err errInvalidSignature

/-! ## Persistence sink (`add_record`) -/

/-- One row of the `txns` table. -/
structure Row where
  txn_hash : String
  unix_epoch : Nat
  signer : String
  fee : Nat
  deriving DecidableEq

/-- The JSON value handed to `add_record`: the codec output plus the
`unix_epoch` field set by the dispatch loop. -/
structure RecordValue where
  txn_hash : String
  signer : String
  fee : Nat
  unix_epoch : Nat
  deriving DecidableEq

/-- The `format!` template of `add_record`: the field values are
interpolated directly into the statement text (`\x27` is the SQL single
quote). -/
def sql_query (data : RecordValue) : String :=
  "INSERT INTO txns ( txn_hash, unix_epoch, signer, fee ) VALUES ( \x27" ++
    data.txn_hash ++ "\x27, " ++ toString data.unix_epoch ++ ", \x27" ++
    data.signer ++ "\x27, " ++ toString data.fee ++ " )"

/-- Modelled from the spec: the storage collaborator (the SQL store behind
`sqlx`, external to `src/`) executing one statement against the schema
`txns(txn_hash text primary key, unix_epoch integer, signer text, fee
integer)`.  The statement built by `sql_query` is a plain `INSERT` with no
`ON CONFLICT` clause, so it appends a row when the primary key is fresh and
raises a duplicate-key error when a row with that `txn_hash` exists. -/
def execInsertTxns (db : List Row) (r : Row) : Except String (List Row) :=
  if db.any (fun q => q.txn_hash == r.txn_hash) then Except.error errDuplicateKey
  else Except.ok (db ++ [r])

/-- What one call of `add_record` does: build the statement text with
`format!` and execute it on the store. -/
structure PersistOutcome where
  statement : String
  result : Except String (List Row)

def add_record (db : List Row) (data : RecordValue) : PersistOutcome :=
  { statement := sql_query data,
    result := execInsertTxns db
      { txn_hash := data.txn_hash, unix_epoch := data.unix_epoch,
        signer := data.signer, fee := data.fee } }

/-! ## CLI arguments and the subscribe request -/

inductive ArgsCommitment where
  | Processed
  | Confirmed
  | Finalized
  deriving DecidableEq

/-- `#[default]` marks `Finalized` in the `ValueEnum`. -/
def argsCommitmentDefault : ArgsCommitment := ArgsCommitment.Finalized

inductive CommitmentLevel where
  | Processed
  | Confirmed
  | Finalized
  deriving DecidableEq

/-- `impl From<ArgsCommitment> for CommitmentLevel`. -/
def ArgsCommitment.into : ArgsCommitment → CommitmentLevel
  | .Processed => .Processed
  | .Confirmed => .Confirmed
  | .Finalized => .Finalized

structure Args where
  endpoint : String
  x_token : Option String
  accounts : List String
  commitment : Option ArgsCommitment
  deriving DecidableEq

/-- `Args::get_commitment`, verbatim from the source: it converts
`ArgsCommitment::default()` and never reads `self.commitment`. -/
def Args.get_commitment (_self : Args) : Option CommitmentLevel :=
  some argsCommitmentDefault.into

/-- prost's `i32` representation of `CommitmentLevel` (the `as i32` cast). -/
def CommitmentLevel.asI32 : CommitmentLevel → Nat
  | .Processed => 0
  | .Confirmed => 1
  | .Finalized => 2

structure SubscribeRequestFilterTransactions where
  vote : Option Bool
  failed : Option Bool
  account_include : List String
  deriving DecidableEq

/-- The subscribe request, trimmed to the fields `get_subscribe_request`
sets to non-default values. -/
structure SubscribeRequest where
  transactions : List (String × SubscribeRequestFilterTransactions)
  commitment : Option Nat
  deriving DecidableEq

def filterLabel : String := "client"

def get_subscribe_request (args : Args) (commitment : Option CommitmentLevel) :
    Option SubscribeRequest :=
  some
    { transactions := [(filterLabel,
        { vote := some false, failed := some false,
          account_include := args.accounts })],
      commitment := commitment.map CommitmentLevel.asI32 }

/-! ## The dispatch loop (`geyser_subscribe`) and the retry loop (`main`)

The inbound stream is modelled as the finite list of items it yields before
(possibly) hanging: each item is either a decoded message or a
transport-level receive error.  The loop threads the table state and the
count of keepalive replies sent on `subscribe_tx`.  Timing (tokio
scheduling, backoff sleeps) is not modelled; the backoff `retry` combinator
is modelled by its control flow on attempt outcomes.
-/

inductive UpdateOneof where
  | transaction (t : SubscribeUpdateTransaction)
  | ping
  | pong
  | other
  deriving DecidableEq

/-- One successfully received `SubscribeUpdate`.  `created_at` is the
message timestamp in whole seconds since the Unix epoch (absent when the
proto field is unset). -/
structure InboundMessage where
  filters : List String
  created_at : Option Nat
  update_oneof : Option UpdateOneof
  deriving DecidableEq

inductive StreamItem where
  | ok (msg : InboundMessage)
  | err (e : String)
  deriving DecidableEq

/-- How one call of `geyser_subscribe` ends: `Ok(())`, `Err(e)` via `?`, or
a panic from an `unwrap` inside the loop body. -/
inductive SessionResult where
  | ok
  | err (e : String)
  | panicked (e : String)
  deriving DecidableEq

structure SessionState where
  db : List Row
  ping_replies : Nat
  deriving DecidableEq

def initState : SessionState :=
  { db := [], ping_replies := 0 }

/-- The `while let Some(message) = stream.next().await` loop of
`geyser_subscribe`, one equation per loop step.  Mirrors the source:
stream end falls out of the loop and returns `Ok(())`; a receive error
logs and `break`s (also returning `Ok(())`); a message is first checked
for `created_at` (`?` on failure), then dispatched on its update tag;
`None` and unexpected tags log and `break`; a decode error propagates via
`?`; a persist error panics via `unwrap`. -/
def geyser_subscribe : List StreamItem → SessionState → SessionState × SessionResult
  | [], st => (st, SessionResult.ok)
  | StreamItem.err _e :: _, st => (st, SessionResult.ok)
  | StreamItem.ok msg :: rest, st =>
    match msg.created_at with
    | none => (st, SessionResult.err errNoCreatedAt)
    | some created_at =>
      match msg.update_oneof with
      | some (UpdateOneof.transaction m) =>
        match m.transaction with
        | none => (st, SessionResult.err errNoTransaction)
        | some tx =>
          match create_pretty_transaction tx with
          | DecodeOutcome.panicked e => (st, SessionResult.panicked e)
          | DecodeOutcome.err e => (st, SessionResult.err e)
          | DecodeOutcome.ok value =>
            match (add_record st.db
                { txn_hash := value.txn_hash, signer := value.signer,
                  fee := value.fee, unix_epoch := created_at }).result with
            | Except.error e => (st, SessionResult.panicked e)
            | Except.ok db2 => geyser_subscribe rest { st with db := db2 }
      | some UpdateOneof.ping =>
        geyser_subscribe rest { st with ping_replies := st.ping_replies + 1 }
      | some UpdateOneof.pong => geyser_subscribe rest st
      | none => (st, SessionResult.ok)
      | some UpdateOneof.other => (st, SessionResult.ok)

/-- How one attempt of the `retry` closure in `main` resolves, as seen by
`backoff::future::retry`: `Ok(())`, a transient error
(`geyser_subscribe(...).map_err(backoff::Error::transient)?`), or a panic
aborting the process. -/
inductive AttemptOutcome where
  | ok
  | transient (e : String)
  | panicked (e : String)
  deriving DecidableEq

/-- One invocation of the closure passed to `retry`, for a given inbound
stream.  Connecting the pool and the client and building the subscribe
request are assumed to succeed here (a connect failure is another
transient path, irrelevant to the claims). -/
def session_attempt (items : List StreamItem) : AttemptOutcome :=
  match geyser_subscribe items initState with
  | (_, SessionResult.ok) => AttemptOutcome.ok
  | (_, SessionResult.err e) => AttemptOutcome.transient e
  | (_, SessionResult.panicked e) => AttemptOutcome.panicked e

/-- How the process-level `retry(ExponentialBackoff::default(), ...)` run
ends over a list of attempt streams. -/
inductive RetryResult where
  | done_ok
  | pending
  | panicked (e : String)
  deriving DecidableEq

/-- Control flow of `backoff::future::retry` over successive attempts: an
`Ok` resolution stops the whole retry future (so `main` returns), a
transient error leads to the next attempt after a backoff sleep, and a
panic aborts.  `pending` means the modelled attempts were exhausted while
the loop was still retrying.  The sleeps themselves and the schedule's
default give-up ceiling (`max_elapsed_time`, 15 minutes) are timing
behaviour and are not modelled. -/
def retry_loop : List (List StreamItem) → RetryResult
  | [] => RetryResult.pending
  | s :: rest =>
    match session_attempt s with
    | AttemptOutcome.ok => RetryResult.done_ok
    | AttemptOutcome.transient _ => retry_loop rest
    | AttemptOutcome.panicked e => RetryResult.panicked e

/-! ## Concrete inputs used by the witnesses and counterexamples -/

def transportError : String := "transport error"

def zeroKey : List Nat := List.replicate 32 0

def sig0 : List Nat := List.replicate 64 0

def sig1 : List Nat := List.replicate 63 0 ++ [1]

def txInfo0 : SubscribeUpdateTransactionInfo :=
  { signature := sig0,
    transaction := some { message := some { account_keys := [zeroKey] } },
    meta := some { fee := 5000 } }

def txInfo1 : SubscribeUpdateTransactionInfo :=
  { signature := sig1,
    transaction := some { message := some { account_keys := [zeroKey] } },
    meta := some { fee := 7 } }

def txInfoBadSig : SubscribeUpdateTransactionInfo :=
  { signature := List.replicate 63 0,
    transaction := some { message := some { account_keys := [zeroKey] } },
    meta := some { fee := 9 } }

def txInfoEmptyKeys : SubscribeUpdateTransactionInfo :=
  { signature := sig0,
    transaction := some { message := some { account_keys := [] } },
    meta := some { fee := 1 } }

def txInfoNoMessage : SubscribeUpdateTransactionInfo :=
  { signature := sig0, transaction := none, meta := some { fee := 1 } }

def txMsg (t : SubscribeUpdateTransactionInfo) (ts : Nat) : InboundMessage :=
  { filters := [filterLabel], created_at := some ts,
    update_oneof := some (UpdateOneof.transaction { transaction := some t }) }

def pingMsg : InboundMessage :=
  { filters := [], created_at := some 10, update_oneof := some UpdateOneof.ping }

def unknownMsg : InboundMessage :=
  { filters := [], created_at := some 11, update_oneof := some UpdateOneof.other }

def pingMsgNoCreatedAt : InboundMessage :=
  { filters := [], created_at := none, update_oneof := some UpdateOneof.ping }

def hash0 : String := String.mk (List.replicate 64 '1')

def hash1 : String := String.mk (List.replicate 63 '1' ++ ['2'])

def signer0 : String := String.mk (List.replicate 32 '1')

def row0 : Row := { txn_hash := hash0, unix_epoch := 1, signer := signer0, fee := 5000 }

def row1 : Row := { txn_hash := hash1, unix_epoch := 2, signer := signer0, fee := 7 }

def c2Stream : List StreamItem :=
  [StreamItem.ok (txMsg txInfo0 1), StreamItem.ok pingMsg,
   StreamItem.ok (txMsg txInfo1 2), StreamItem.err transportError]

def sampleRecord : RecordValue :=
  { txn_hash := hash0, signer := signer0, fee := 5000, unix_epoch := 1 }

def sampleRecord2 : RecordValue :=
  { txn_hash := hash1, signer := signer0, fee := 5000, unix_epoch := 1 }

def defaultEndpoint : String := "http://127.0.0.1:10000"

def cliArgs (c : Option ArgsCommitment) : Args :=
  { endpoint := defaultEndpoint, x_token := none, accounts := [], commitment := c }

/-! ## The claims -/

/-- C1 (the claimed contract fails on the code): the statement `add_record`
builds is a plain `INSERT`, so persisting a record whose `txn_hash` is
already stored raises a duplicate-key error, which the loop's `unwrap`
turns into a panic.  The table does keep a single row, but the call is not
error-free as the claim requires. -/
theorem c1_duplicate_insert_fails :
    (add_record [] sampleRecord).result = Except.ok [row0] ∧
    (add_record [row0] sampleRecord).result = Except.error errDuplicateKey ∧
    geyser_subscribe
        [StreamItem.ok (txMsg txInfo0 1), StreamItem.ok (txMsg txInfo0 2)] initState
      = ({ db := [row0], ping_replies := 0 }, SessionResult.panicked errDuplicateKey) :=
  ⟨rfl, rfl, by decide⟩

/-- C2, counterexample: on the stream Transaction, Ping, Transaction,
transport error, the session does not end as Transient — the receive error
only `break`s the loop and `geyser_subscribe` returns `Ok(())`, so the
retry combinator resolves successfully and never retries. -/
theorem c2_counterexample :
    (geyser_subscribe c2Stream initState).2 = SessionResult.ok ∧
    session_attempt c2Stream = AttemptOutcome.ok := by
  refine ⟨?_, ?_⟩ <;> decide

/-- C2 (amended): on the stream Transaction, Ping, Transaction, transport
error, the dispatch loop persists exactly 2 records and sends exactly 1
pong reply, but the session exits as a clean success (`Ok`), so the
Supervisor stops instead of retrying. -/
theorem c2_amended :
    geyser_subscribe c2Stream initState
      = ({ db := [row0, row1], ping_replies := 1 }, SessionResult.ok) ∧
    retry_loop [c2Stream] = RetryResult.done_ok := by
  refine ⟨?_, ?_⟩ <;> decide

/-- C4, counterexample: a session that ends cleanly (stream end-of-input)
makes the whole retry loop resolve successfully — the supervisor terminates
on its own and never starts the next session. -/
theorem c4_counterexample :
    retry_loop [[], [StreamItem.ok (txMsg txInfo0 5)]] = RetryResult.done_ok := by
  decide

/-- C4 (amended): after a session attempt resolves `Ok` the supervisor loop
terminates successfully instead of starting a new session; only a
`Transient` outcome leads to the next attempt. -/
theorem c4_amended (s : List StreamItem) (rest : List (List StreamItem)) :
    (session_attempt s = AttemptOutcome.ok →
      retry_loop (s :: rest) = RetryResult.done_ok) ∧
    (∀ e, session_attempt s = AttemptOutcome.transient e →
      retry_loop (s :: rest) = retry_loop rest) := by
  constructor
  · intro h
    simp only [retry_loop, h]
  · intro e h
    simp only [retry_loop, h]

/-- C4, witness: the empty stream (clean end) resolves the retry loop. -/
theorem c4_witness :
    retry_loop ([] :: [[StreamItem.err transportError]]) = RetryResult.done_ok :=
  (c4_amended [] [[StreamItem.err transportError]]).1 rfl

/-- C5, counterexample: an Unknown-tag message makes the loop `break` and
`geyser_subscribe` return `Ok(())` — the session does not end as an error
outcome.  No record is persisted after that message, as the run shows. -/
theorem c5_counterexample :
    geyser_subscribe
        [StreamItem.ok unknownMsg, StreamItem.ok (txMsg txInfo0 1)] initState
      = (initState, SessionResult.ok) ∧
    session_attempt [StreamItem.ok unknownMsg, StreamItem.ok (txMsg txInfo0 1)]
      = AttemptOutcome.ok := by
  refine ⟨?_, ?_⟩ <;> decide

/-- C5 (amended): a message with an Unknown or absent update tag ends the
session immediately and nothing later in the stream is processed, but the
exit is a clean success (`Ok`), not an error outcome. -/
theorem c5_amended (f : List String) (t : Nat) (uo : Option UpdateOneof)
    (rest : List StreamItem) (st : SessionState)
    (hu : uo = none ∨ uo = some UpdateOneof.other) :
    geyser_subscribe (StreamItem.ok
        { filters := f, created_at := some t, update_oneof := uo } :: rest) st
      = (st, SessionResult.ok) := by
  rcases hu with h | h <;> subst h <;> rfl

/-- C5, witness: the amended statement at the concrete Unknown message. -/
theorem c5_witness :
    geyser_subscribe (StreamItem.ok
        { filters := [], created_at := some 11,
          update_oneof := some UpdateOneof.other } :: [StreamItem.ok (txMsg txInfo0 1)])
        initState
      = (initState, SessionResult.ok) :=
  c5_amended [] 11 (some UpdateOneof.other) [StreamItem.ok (txMsg txInfo0 1)] initState
    (Or.inr rfl)

/-- C6 (the claimed contract fails on the code): on a payload whose
account-key list is empty, `create_pretty_transaction` panics indexing
`[0]`; on a payload with no transaction/message it panics unwrapping
`None`.  It never returns a typed `MissingAccountKeys` failure. -/
theorem c6_decode_panics :
    create_pretty_transaction txInfoEmptyKeys
      = DecodeOutcome.panicked panicIndexZeroOfEmpty ∧
    create_pretty_transaction txInfoNoMessage
      = DecodeOutcome.panicked panicUnwrapNone := by
  refine ⟨?_, ?_⟩ <;> decide

/-- C8 (the claimed contract fails on the code): `Args::get_commitment`
ignores the user-supplied commitment and always yields `Finalized`, which
is what the subscribe request then carries (prost value 2). -/
theorem c8_commitment_ignored :
    (cliArgs (some ArgsCommitment.Processed)).get_commitment
      = some CommitmentLevel.Finalized ∧
    (cliArgs (some ArgsCommitment.Confirmed)).get_commitment
      = some CommitmentLevel.Finalized ∧
    (cliArgs none).get_commitment = some CommitmentLevel.Finalized ∧
    (get_subscribe_request (cliArgs (some ArgsCommitment.Processed))
        ((cliArgs (some ArgsCommitment.Processed)).get_commitment)).map
        SubscribeRequest.commitment
      = some (some 2) := by
  refine ⟨?_, ?_, ?_, ?_⟩ <;> decide

/-- C9 (the claimed contract fails on the code): the statement text
`add_record` executes is built with `format!` and embeds the record's
values, so it is not a fixed template — two records with different
`txn_hash` yield different statement texts, and the values appear verbatim
inside the text instead of travelling as bound parameters. -/
theorem c9_interpolated_sql :
    sql_query sampleRecord ≠ sql_query sampleRecord2 ∧
    sql_query { txn_hash := "h", signer := "s", fee := 2, unix_epoch := 1 }
      = "INSERT INTO txns ( txn_hash, unix_epoch, signer, fee ) VALUES ( \x27h\x27, 1, \x27s\x27, 2 )" := by
  refine ⟨?_, ?_⟩ <;> decide

/-- C10: a received message whose `created_at` is absent makes the loop
return the `no created_at` error before the update tag is ever examined —
for every update kind, including Ping and Pong — and `main` maps that
session error to a transient backoff error. -/
theorem c10_missing_created_at (f : List String) (uo : Option UpdateOneof)
    (rest : List StreamItem) (st : SessionState) :
    geyser_subscribe (StreamItem.ok
        { filters := f, created_at := none, update_oneof := uo } :: rest) st
      = (st, SessionResult.err errNoCreatedAt) ∧
    session_attempt (StreamItem.ok
        { filters := f, created_at := none, update_oneof := uo } :: rest)
      = AttemptOutcome.transient errNoCreatedAt :=
  ⟨rfl, rfl⟩

/-- A payload whose transaction, message and metadata are all present. -/
def mkPayload (sig : List Nat) (keys : List (List Nat)) (fee : Nat) :
    SubscribeUpdateTransactionInfo :=
  { signature := sig,
    transaction := some { message := some { account_keys := keys } },
    meta := some { fee := fee } }

/-- An inbound Transaction message wrapping a payload. -/
def mkTxMessage (f : List String) (t : Nat) (tx : SubscribeUpdateTransactionInfo) :
    InboundMessage :=
  { filters := f, created_at := some t,
    update_oneof := some (UpdateOneof.transaction { transaction := some tx }) }

/-- Helper: on a payload whose transaction, message and metadata are all
present and whose account keys are a non-empty list of 32-byte keys, the
codec reduces to the signature-length check. -/
theorem create_pretty_transaction_spec (sig : List Nat) (k : List Nat)
    (ks : List (List Nat)) (fee : Nat)
    (hall : ((k :: ks).all (fun key => key.length == 32)) = true) :
    create_pretty_transaction (mkPayload sig (k :: ks) fee)
      = if sig.length = 64 then
          DecodeOutcome.ok
            { txn_hash := base58Encode sig, signer := base58Encode k, fee := fee }
        else DecodeOutcome.err errInvalidSignature := by
  show (match create_pubkey_vec (k :: ks) with
      | none => DecodeOutcome.panicked panicBadPubkey
      | some pubkeys =>
        match pubkeys with
        | [] => DecodeOutcome.panicked panicIndexZeroOfEmpty
        | pk :: _ =>
          if sig.length = 64 then
            DecodeOutcome.ok
              { txn_hash := base58Encode sig, signer := base58Encode pk, fee := fee }
          else DecodeOutcome.err errInvalidSignature)
    = _
  unfold create_pubkey_vec
  rw [if_pos hall]

/-- C3, counterexample: a Transaction whose signature has the wrong length
makes the dispatch loop return the decode error via `?`: the session ends
as Transient and the following valid Transaction is never processed (the
final table is empty), contradicting drop-and-continue. -/
theorem c3_counterexample :
    geyser_subscribe
        [StreamItem.ok (txMsg txInfoBadSig 1), StreamItem.ok (txMsg txInfo0 2)] initState
      = (initState, SessionResult.err errInvalidSignature) ∧
    session_attempt [StreamItem.ok (txMsg txInfoBadSig 1), StreamItem.ok (txMsg txInfo0 2)]
      = AttemptOutcome.transient errInvalidSignature := by
  refine ⟨?_, ?_⟩ <;> decide

/-- C3 (amended): a Transaction update that fails to decode (signature of
the wrong length, with keys and metadata otherwise well-formed) is not
dropped: the decode error propagates out of the loop and terminates the
session with an error, whatever the rest of the stream holds.  (Payloads
with absent message/keys or metadata panic instead, see C6.) -/
theorem c3_amended (sig : List Nat) (k : List Nat) (ks : List (List Nat)) (fee : Nat)
    (f : List String) (t : Nat) (rest : List StreamItem) (st : SessionState)
    (hall : ((k :: ks).all (fun key => key.length == 32)) = true)
    (hs : ¬ sig.length = 64) :
    geyser_subscribe
        (StreamItem.ok (mkTxMessage f t (mkPayload sig (k :: ks) fee)) :: rest) st
      = (st, SessionResult.err errInvalidSignature) := by
  have hdec := create_pretty_transaction_spec sig k ks fee hall
  rw [if_neg hs] at hdec
  show (match create_pretty_transaction (mkPayload sig (k :: ks) fee) with
    | DecodeOutcome.panicked e => (st, SessionResult.panicked e)
    | DecodeOutcome.err e => (st, SessionResult.err e)
    | DecodeOutcome.ok value =>
      match (add_record st.db
          { txn_hash := value.txn_hash, signer := value.signer,
            fee := value.fee, unix_epoch := t }).result with
      | Except.error e => (st, SessionResult.panicked e)
      | Except.ok db2 => geyser_subscribe rest { st with db := db2 })
    = (st, SessionResult.err errInvalidSignature)
  rw [hdec]

/-- C3, witness: the amended statement at the concrete bad-signature
payload. -/
theorem c3_witness :
    geyser_subscribe
        (StreamItem.ok (mkTxMessage [filterLabel] 3 txInfoBadSig) :: []) initState
      = (initState, SessionResult.err errInvalidSignature) :=
  c3_amended (List.replicate 63 0) zeroKey [] 9 [filterLabel] 3 [] initState
    (by decide) (by decide)

/-- C7: on every payload with transaction, message and metadata present, a
non-empty list of 32-byte account keys and a 64-byte signature, the codec
succeeds; the signer is the (base-58 rendering of the) first account key,
the fee is copied from the metadata, and the `txn_hash` string decodes back
to the original signature bytes under `Signature::from_str`. -/
theorem c7_decode_roundtrip (sig : List Nat) (k : List Nat) (ks : List (List Nat))
    (fee : Nat)
    (hall : ((k :: ks).all (fun key => key.length == 32)) = true)
    (hs : sig.length = 64)
    (hsb : ∀ b ∈ sig, b < 256) :
    create_pretty_transaction (mkPayload sig (k :: ks) fee)
      = DecodeOutcome.ok
          { txn_hash := base58Encode sig, signer := base58Encode k, fee := fee } ∧
    signatureFromStr (base58Encode sig) = some sig := by
  constructor
  · have hdec := create_pretty_transaction_spec sig k ks fee hall
    rw [if_pos hs] at hdec
    exact hdec
  · have hrt := base58_roundtrip sig hsb
    show (match base58Decode (base58Encode sig) with
      | none => none
      | some bs => if bs.length = 64 then some bs else none) = some sig
    rw [hrt]
    show (if sig.length = 64 then some sig else none) = some sig
    rw [if_pos hs]

/-- C7, witness: the concrete payload of the spec's worked example — 64
zero signature bytes, one 32-byte key, fee 5000. -/
theorem c7_witness :
    create_pretty_transaction (mkPayload sig0 [zeroKey] 5000)
      = DecodeOutcome.ok
          { txn_hash := base58Encode sig0, signer := base58Encode zeroKey, fee := 5000 } ∧
    signatureFromStr (base58Encode sig0) = some sig0 :=
  c7_decode_roundtrip sig0 zeroKey [] 5000 (by decide) (by decide) (by decide)
